import Mathlib

/-! salsa: response mapper and results iterator

A shallow embedding of `response.go` and `errors.go` of `asimpleidea/salsa`.

* Go `int` is modelled by `Int`, an unbounded integer.  Slice lengths are below
  `2^63`, so the increment inside the loop of `Next` (line 168, run with the
  cursor below the length) cannot wrap.  The increment at line 126 wraps in Go
  exactly when the cursor at entry is `maxInt = 2^63 - 1`; the embedding agrees
  with the code at every cursor below `maxInt`, and a statement that depends on
  the value of the cursor after that increment carries the bound as a
  hypothesis.
* Go `string` is modelled by `String`.
* Go `float64` is modelled by its bit pattern; the only operations the two
  files perform on floats are copying and the helper `atof64`.
* A pointer that may be nil is an `Option`.
* Methods with a pointer receiver are written in state-passing style: they
  return the receiver after the call next to the returned values.
* A run-time panic is an explicit outcome.

The helpers `atoi` and `atof64`, package `indexes`, package `sauces` and the
type `result` with its per-source constructor methods live outside the two
files; they are parameters or are modelled from the specification, each marked
where it is declared.
-/

namespace Salsa

/-! ## errors.go -/

/-- The sentinel errors of `errors.go`, each one a distinct comparable identity
(`errors.New` values). -/
inductive error where
  | ErrOptions
  | ErrIteratorFinished
  | ErrUknownIndex
  | ErrServerSide
  | ErrClientSide
deriving DecidableEq, Repr

/-- The struct `sauceError` of `errors.go`. -/
structure sauceError where
  msg : String
  err : error
deriving DecidableEq, Repr

/-- The method `(*sauceError).Error`. -/
def sauceError.Error (se : sauceError) : String := se.msg

/-- The method `(*sauceError).Unwrap`. -/
def sauceError.Unwrap (se : sauceError) : error := se.err

/-! ## response.go: types -/

/-- Go `float64`, as its 64-bit pattern. -/
structure float64 where
  bits : Nat
deriving DecidableEq, Repr

/-- The type `AccountType` (`type AccountType int`). -/
abbrev AccountType := Int

/-- The constant `Unknown AccountType = iota - 1`, with `iota = 0`. -/
def Unknown : AccountType := 0 - 1

/-- The constant `AnonymousAccount`: the repeated expression `iota - 1` with `iota = 1`. -/
def AnonymousAccount : AccountType := 1 - 1

/-- The constant `NormalAccount`: `iota - 1` with `iota = 2`. -/
def NormalAccount : AccountType := 2 - 1

/-- The constant `PremiumAccount`: `iota - 1` with `iota = 3`. -/
def PremiumAccount : AccountType := 3 - 1

/-- The type `indexes.Index`, an integer code. -/
abbrev Index := Int

/-- The fifteen constants of package `indexes` that `Next` switches on.  The
package is outside the two files, so the values of the codes are a parameter of
everything that depends on them. -/
structure Indexes where
  DeviantArt : Index
  EHentai : Index
  ArtStation : Index
  Pixiv : Index
  AniDB : Index
  Pawoo : Index
  Gelbooru : Index
  Danbooru : Index
  E621 : Index
  PortalGraphics : Index
  Sankaku : Index
  FurAffinity : Index
  SeigaIllustration : Index
  HMags : Index
  IMDb : Index
deriving DecidableEq, Repr

/-- The struct `resultHeader`. -/
structure resultHeader where
  Similarity : String
  Thumbnail : String
  IndexID : Index
  IndexName : String
  Dupes : Int
  Hidden : Int
deriving DecidableEq, Repr

/-- Modelled from the spec: the type `result`, declared outside the two files.
"RawResult: { header: RawResultHeader, sourceFields: opaque per-source
payload }"; `Next` reads `res.Header.IndexID`, which fixes the name of the
first field. -/
structure result where
  Header : resultHeader
  sourceFields : String
deriving DecidableEq, Repr

/-- The struct `sauces.SauceHeader`, with the fields of the composite literal in
`toSauceHeader`. -/
structure SauceHeader where
  Similarity : float64
  Thumbnail : String
  IndexID : Index
  IndexName : String
  Dupes : Int
  Hidden : Bool
deriving DecidableEq, Repr

/-- Modelled from the spec: the interface `sauces.Sauce` and the fifteen structs
that implement it, declared in package `sauces`.  "A closed set of concrete
shapes, one per supported index code, each embedding a common SauceHeader plus
source-specific fields." -/
inductive Sauce where
  | DeviantArt (h : SauceHeader) (fields : String)
  | EHentai (h : SauceHeader) (fields : String)
  | ArtStation (h : SauceHeader) (fields : String)
  | Pixiv (h : SauceHeader) (fields : String)
  | AniDB (h : SauceHeader) (fields : String)
  | Pawoo (h : SauceHeader) (fields : String)
  | Gelbooru (h : SauceHeader) (fields : String)
  | Danbooru (h : SauceHeader) (fields : String)
  | E621 (h : SauceHeader) (fields : String)
  | PortalGraphics (h : SauceHeader) (fields : String)
  | Sankaku (h : SauceHeader) (fields : String)
  | FurAffinity (h : SauceHeader) (fields : String)
  | SeigaIllustration (h : SauceHeader) (fields : String)
  | HMags (h : SauceHeader) (fields : String)
  | IMDb (h : SauceHeader) (fields : String)
deriving DecidableEq, Repr

/-- The struct `responseHeader`. -/
structure responseHeader where
  UserID : String
  AccountType : String
  ShortLimit : String
  LongLimit : String
  LongRemaining : Int
  ShortRemaining : Int
  Status : Int
  ResultsRequested : Int
  ResultsReturned : Int
  SearchDepth : String
  MinimumSimilarity : float64
  QueryImageDisplay : String
  QueryImage : String
  Message : String
deriving DecidableEq, Repr

/-- The struct `sauceResponse`; `Header` is a pointer. -/
structure sauceResponse where
  Header : Option responseHeader
  Results : List result
deriving DecidableEq, Repr

/-- The struct `ResultsIterator`. -/
structure ResultsIterator where
  currIndex : Int
  results : List result
deriving DecidableEq, Repr

/-- The struct `Response`; `Results` and `header` are pointers. -/
structure Response where
  UserID : Int
  AccountType : AccountType
  ShortLimit : Int
  LongLimit : Int
  ShortRemaining : Int
  LongRemaining : Int
  ResultsRequested : Int
  ResultsReturned : Int
  SearchDepth : float64
  MinimumSimilarity : float64
  QueryImage : String
  QueryImageDisplay : String
  Results : Option ResultsIterator
  header : Option responseHeader
deriving DecidableEq, Repr

/-! ## response.go: functions -/

/-- The method `(*resultHeader).toSauceHeader`.  The helper `atof64` is defined
outside the two files and is a parameter. -/
def resultHeader.toSauceHeader (atof64 : String → float64) (r : resultHeader) : SauceHeader :=
  { Similarity := atof64 r.Similarity
    Thumbnail := r.Thumbnail
    IndexID := r.IndexID
    IndexName := r.IndexName
    Dupes := r.Dupes
    Hidden := decide (r.Hidden = 1) }

/-- The function `newResponse`.  The helpers `atoi` and `atof64` are parameters.
A nil `r.Header` makes the first field access panic (nil pointer dereference):
the result is then `none`. -/
def newResponse (atoi : String → Int) (atof64 : String → float64) (r : sauceResponse) :
    Option Response :=
  match r.Header with
  | none => none
  | some h =>
    some
      { header := r.Header
        UserID := atoi h.UserID
        AccountType := atoi h.AccountType
        ShortLimit := atoi h.ShortLimit
        LongLimit := atoi h.LongLimit
        ShortRemaining := h.ShortRemaining
        LongRemaining := h.LongRemaining
        ResultsRequested := h.ResultsRequested
        ResultsReturned := h.ResultsReturned
        SearchDepth := atof64 h.SearchDepth
        MinimumSimilarity := h.MinimumSimilarity
        QueryImage := h.QueryImage
        QueryImageDisplay := h.QueryImageDisplay
        Results := some { currIndex := -1, results := r.Results } }

/-- The method `(*Response).CanPerformMoreCalls`, in state-passing style: the
returned boolean and the receiver after the call (the body assigns nothing). -/
def Response.CanPerformMoreCalls (r : Response) : Bool × Response :=
  (decide (r.ShortLimit > 0) && decide (r.LongRemaining > 0), r)

/-- Modelled from the spec: the per-source constructor methods of `result`
(`res.deviantArt()` and its fourteen siblings), defined outside the two files.
"Constructors that copy the common header fields (similarity parsed from string
to float, thumbnail, index id/name, dupe count, hidden flag derived from an
equality check against 1) plus source-specific payload fields passed through
unchanged from the opaque per-source payload." -/
def result.deviantArt (atof64 : String → float64) (res : result) : Sauce :=
  Sauce.DeviantArt (res.Header.toSauceHeader atof64) res.sourceFields

/-- Modelled from the spec: the constructor method `eHentai`, as `deviantArt`. -/
def result.eHentai (atof64 : String → float64) (res : result) : Sauce :=
  Sauce.EHentai (res.Header.toSauceHeader atof64) res.sourceFields

/-- Modelled from the spec: the constructor method `artStation`, as `deviantArt`. -/
def result.artStation (atof64 : String → float64) (res : result) : Sauce :=
  Sauce.ArtStation (res.Header.toSauceHeader atof64) res.sourceFields

/-- Modelled from the spec: the constructor method `pixiv`, as `deviantArt`. -/
def result.pixiv (atof64 : String → float64) (res : result) : Sauce :=
  Sauce.Pixiv (res.Header.toSauceHeader atof64) res.sourceFields

/-- Modelled from the spec: the constructor method `aniDB`, as `deviantArt`. -/
def result.aniDB (atof64 : String → float64) (res : result) : Sauce :=
  Sauce.AniDB (res.Header.toSauceHeader atof64) res.sourceFields

/-- Modelled from the spec: the constructor method `pawoo`, as `deviantArt`. -/
def result.pawoo (atof64 : String → float64) (res : result) : Sauce :=
  Sauce.Pawoo (res.Header.toSauceHeader atof64) res.sourceFields

/-- Modelled from the spec: the constructor method `gelbooru`, as `deviantArt`. -/
def result.gelbooru (atof64 : String → float64) (res : result) : Sauce :=
  Sauce.Gelbooru (res.Header.toSauceHeader atof64) res.sourceFields

/-- Modelled from the spec: the constructor method `danbooru`, as `deviantArt`. -/
def result.danbooru (atof64 : String → float64) (res : result) : Sauce :=
  Sauce.Danbooru (res.Header.toSauceHeader atof64) res.sourceFields

/-- Modelled from the spec: the constructor method `e621`, as `deviantArt`. -/
def result.e621 (atof64 : String → float64) (res : result) : Sauce :=
  Sauce.E621 (res.Header.toSauceHeader atof64) res.sourceFields

/-- Modelled from the spec: the constructor method `portalGraphics`, as `deviantArt`. -/
def result.portalGraphics (atof64 : String → float64) (res : result) : Sauce :=
  Sauce.PortalGraphics (res.Header.toSauceHeader atof64) res.sourceFields

/-- Modelled from the spec: the constructor method `sankaku`, as `deviantArt`. -/
def result.sankaku (atof64 : String → float64) (res : result) : Sauce :=
  Sauce.Sankaku (res.Header.toSauceHeader atof64) res.sourceFields

/-- Modelled from the spec: the constructor method `furAffinity`, as `deviantArt`. -/
def result.furAffinity (atof64 : String → float64) (res : result) : Sauce :=
  Sauce.FurAffinity (res.Header.toSauceHeader atof64) res.sourceFields

/-- Modelled from the spec: the constructor method `seigaIllustration`, as `deviantArt`. -/
def result.seigaIllustration (atof64 : String → float64) (res : result) : Sauce :=
  Sauce.SeigaIllustration (res.Header.toSauceHeader atof64) res.sourceFields

/-- Modelled from the spec: the constructor method `hMags`, as `deviantArt`. -/
def result.hMags (atof64 : String → float64) (res : result) : Sauce :=
  Sauce.HMags (res.Header.toSauceHeader atof64) res.sourceFields

/-- Modelled from the spec: the constructor method `iMDb`, as `deviantArt`. -/
def result.iMDb (atof64 : String → float64) (res : result) : Sauce :=
  Sauce.IMDb (res.Header.toSauceHeader atof64) res.sourceFields

/-- What a call of `Next` does: it returns the pair `(sauces.Sauce, error)`, each
possibly nil, or it panics on a slice access out of range (Go reports the index
and the length). -/
inductive Outcome where
  | returned (sauce : Option Sauce) (err : Option sauceError)
  | indexOutOfRange (index : Int) (length : Nat)
deriving DecidableEq, Repr

/-- The value `&sauceError{"finished", ErrIteratorFinished}` returned with a nil
sauce at lines 128 and 172. -/
def finished : Outcome :=
  Outcome.returned none (some { msg := "finished", err := error.ErrIteratorFinished })

/-- A bounds-checked slice read `xs[i]` with a Go `int` index: `none` when the
index is negative or not below the length. -/
def sliceAt {α : Type} (xs : List α) (i : Int) : Option α :=
  if i < 0 then none else xs[i.toNat]?

/-- The `switch res.Header.IndexID` statement inside the loop of `Next`, cases in
source order: `some v` when a case returns the variant `v`, `none` for the
`default` branch. -/
def Next.switch (ix : Indexes) (atof64 : String → float64) (res : result) : Option Sauce :=
  if res.Header.IndexID = ix.DeviantArt then some (res.deviantArt atof64)
  else if res.Header.IndexID = ix.EHentai then some (res.eHentai atof64)
  else if res.Header.IndexID = ix.ArtStation then some (res.artStation atof64)
  else if res.Header.IndexID = ix.Pixiv then some (res.pixiv atof64)
  else if res.Header.IndexID = ix.AniDB then some (res.aniDB atof64)
  else if res.Header.IndexID = ix.Pawoo then some (res.pawoo atof64)
  else if res.Header.IndexID = ix.Gelbooru then some (res.gelbooru atof64)
  else if res.Header.IndexID = ix.Danbooru then some (res.danbooru atof64)
  else if res.Header.IndexID = ix.E621 then some (res.e621 atof64)
  else if res.Header.IndexID = ix.PortalGraphics then some (res.portalGraphics atof64)
  else if res.Header.IndexID = ix.Sankaku then some (res.sankaku atof64)
  else if res.Header.IndexID = ix.FurAffinity then some (res.furAffinity atof64)
  else if res.Header.IndexID = ix.SeigaIllustration then some (res.seigaIllustration atof64)
  else if res.Header.IndexID = ix.HMags then some (res.hMags atof64)
  else if res.Header.IndexID = ix.IMDb then some (res.iMDb atof64)
  else none

/-- The loop `for i := r.currIndex; i < len(r.results); i++ { switch ... }` of
`Next` followed by the final `return` of line 172.  The body never reads `i`, so
the loop is driven by `n = len(r.results) - i`, the number of iterations left:
the test `i < len(r.results)` is `n ≠ 0` and `i++` takes `n + 1` to `n`.
`res` is the record fetched before the loop; the body does not assign it. -/
def Next.loop (ix : Indexes) (atof64 : String → float64) (res : result) :
    Nat → ResultsIterator → ResultsIterator × Outcome
  | 0, r => (r, finished)
  | n + 1, r =>
    match Next.switch ix atof64 res with
    | some v => (r, Outcome.returned (some v) none)
    | none => Next.loop ix atof64 res n { r with currIndex := r.currIndex + 1 }

/-- The method `(*ResultsIterator).Next`, in state-passing style: the iterator
after the call and what the call did.  `r.currIndex++` is `+ 1` on `Int`: this is
the Go increment for every cursor below `maxInt`; at `maxInt` Go wraps to
`-2^63`, where the call panics on the slice read in the code as it does here. -/
def ResultsIterator.Next (ix : Indexes) (atof64 : String → float64) (r : ResultsIterator) :
    ResultsIterator × Outcome :=
  let r1 : ResultsIterator := { r with currIndex := r.currIndex + 1 }
  if r1.currIndex = r1.results.length then
    (r1, finished)
  else
    match sliceAt r1.results r1.currIndex with
    | none => (r1, Outcome.indexOutOfRange r1.currIndex r1.results.length)
    | some res =>
      Next.loop ix atof64 res (r1.results.length - r1.currIndex).toNat r1

/-! ## Vocabulary of the statements -/

/-- The largest value of a Go `int` on a 64-bit platform (`math.MaxInt64`). -/
def maxInt : Int := 2 ^ 63 - 1

/-- The common header a variant embeds (the promoted field `SauceHeader` of each
of the fifteen structs). -/
def Sauce.header : Sauce → SauceHeader
  | .DeviantArt h _ => h
  | .EHentai h _ => h
  | .ArtStation h _ => h
  | .Pixiv h _ => h
  | .AniDB h _ => h
  | .Pawoo h _ => h
  | .Gelbooru h _ => h
  | .Danbooru h _ => h
  | .E621 h _ => h
  | .PortalGraphics h _ => h
  | .Sankaku h _ => h
  | .FurAffinity h _ => h
  | .SeigaIllustration h _ => h
  | .HMags h _ => h
  | .IMDb h _ => h

/-- The source-specific payload a variant carries. -/
def Sauce.fields : Sauce → String
  | .DeviantArt _ f => f
  | .EHentai _ f => f
  | .ArtStation _ f => f
  | .Pixiv _ f => f
  | .AniDB _ f => f
  | .Pawoo _ f => f
  | .Gelbooru _ f => f
  | .Danbooru _ f => f
  | .E621 _ f => f
  | .PortalGraphics _ f => f
  | .Sankaku _ f => f
  | .FurAffinity _ f => f
  | .SeigaIllustration _ f => f
  | .HMags _ f => f
  | .IMDb _ f => f

/-- The index code of the source a variant belongs to: the constant of package
`indexes` that bears the name of the variant. -/
def Sauce.index (ix : Indexes) : Sauce → Index
  | .DeviantArt _ _ => ix.DeviantArt
  | .EHentai _ _ => ix.EHentai
  | .ArtStation _ _ => ix.ArtStation
  | .Pixiv _ _ => ix.Pixiv
  | .AniDB _ _ => ix.AniDB
  | .Pawoo _ _ => ix.Pawoo
  | .Gelbooru _ _ => ix.Gelbooru
  | .Danbooru _ _ => ix.Danbooru
  | .E621 _ _ => ix.E621
  | .PortalGraphics _ _ => ix.PortalGraphics
  | .Sankaku _ _ => ix.Sankaku
  | .FurAffinity _ _ => ix.FurAffinity
  | .SeigaIllustration _ _ => ix.SeigaIllustration
  | .HMags _ _ => ix.HMags
  | .IMDb _ _ => ix.IMDb

/-- The codes that have a case in the switch of `Next`, in source order. -/
def Indexes.supportedCodes (ix : Indexes) : List Index :=
  [ix.DeviantArt, ix.EHentai, ix.ArtStation, ix.Pixiv, ix.AniDB, ix.Pawoo, ix.Gelbooru,
   ix.Danbooru, ix.E621, ix.PortalGraphics, ix.Sankaku, ix.FurAffinity,
   ix.SeigaIllustration, ix.HMags, ix.IMDb]

/-- An index code is supported when it is one of the fifteen codes of the switch. -/
def Indexes.supported (ix : Indexes) (c : Index) : Prop := c ∈ ix.supportedCodes

instance (ix : Indexes) (c : Index) : Decidable (ix.supported c) := by
  unfold Indexes.supported; infer_instance

/-- The iterator after `k` consecutive calls of `Next`, whatever they did. -/
def ResultsIterator.afterCalls (ix : Indexes) (atof64 : String → float64) :
    Nat → ResultsIterator → ResultsIterator
  | 0, r => r
  | k + 1, r => ResultsIterator.afterCalls ix atof64 k (r.Next ix atof64).1

/-- What the `k`-th call of `Next` (counted from 1) does on an iterator. -/
def ResultsIterator.call (ix : Indexes) (atof64 : String → float64) (k : Nat)
    (r : ResultsIterator) : Outcome :=
  ((r.afterCalls ix atof64 (k - 1)).Next ix atof64).2

/-- The index codes saucenao publishes for the fifteen sources, a concrete table
to evaluate the definitions on. -/
def saucenaoIndexes : Indexes :=
  { DeviantArt := 34, EHentai := 38, ArtStation := 39, Pixiv := 5, AniDB := 21, Pawoo := 35,
    Gelbooru := 25, Danbooru := 9, E621 := 29, PortalGraphics := 33, Sankaku := 27,
    FurAffinity := 40, SeigaIllustration := 8, HMags := 0, IMDb := 23 }

/-- A stand-in for `atof64` to evaluate the definitions on: every string is read as `+0`. -/
def zeroAtof64 : String → float64 := fun _ => { bits := 0 }

/-- A record with the given index code and empty strings elsewhere. -/
def recordOf (c : Index) : result :=
  { Header := { Similarity := "", Thumbnail := "", IndexID := c, IndexName := "", Dupes := 0,
                Hidden := 0 },
    sourceFields := "" }

/-- A raw header with every string empty and every number zero. -/
def emptyHeader : responseHeader :=
  { UserID := "", AccountType := "", ShortLimit := "", LongLimit := "", LongRemaining := 0,
    ShortRemaining := 0, Status := 0, ResultsRequested := 0, ResultsReturned := 0,
    SearchDepth := "", MinimumSimilarity := { bits := 0 }, QueryImageDisplay := "",
    QueryImage := "", Message := "" }

/-- The raw response of the example in the specification:
`results = [unsupported, danbooru, unsupported, pixiv]`, with 37 a code outside
the switch. -/
def mixedResponse : sauceResponse :=
  { Header := some emptyHeader
    Results := [recordOf 37, recordOf 9, recordOf 37, recordOf 5] }

/-- A raw response without results. -/
def noResults : sauceResponse :=
  { Header := some emptyHeader, Results := [] }

/-- A raw response with a single Danbooru record. -/
def oneDanbooru : sauceResponse :=
  { Header := some emptyHeader, Results := [recordOf 9] }

/-- A raw response with a Danbooru record followed by a Pixiv record. -/
def danbooruPixiv : sauceResponse :=
  { Header := some emptyHeader, Results := [recordOf 9, recordOf 5] }

/-- An iterator before its first call over `[unsupported, danbooru]`. -/
def unsupportedThenDanbooru : ResultsIterator :=
  { currIndex := -1, results := [recordOf 37, recordOf 9] }

/-- An iterator positioned on a Danbooru record that is followed by two
unsupported records. -/
def danbooruThenUnsupported : ResultsIterator :=
  { currIndex := 0, results := [recordOf 9, recordOf 37, recordOf 37] }

/-- An iterator before its first call over `[unsupported, pixiv, danbooru]`. -/
def unsupportedThenTwo : ResultsIterator :=
  { currIndex := -1, results := [recordOf 37, recordOf 5, recordOf 9] }

/-- A `Response` with `ShortLimit = 4`, `LongRemaining = 100` and no short-window
call left, nil pointers elsewhere. -/
def shortWindowSpent : Response :=
  { UserID := 0, AccountType := 1, ShortLimit := 4, LongLimit := 100, ShortRemaining := 0,
    LongRemaining := 100, ResultsRequested := 0, ResultsReturned := 0,
    SearchDepth := { bits := 0 }, MinimumSimilarity := { bits := 0 }, QueryImage := "",
    QueryImageDisplay := "", Results := none, header := none }

/-- The number a list of decimal digits denotes, most significant digit first. -/
def digitsValue (ds : List Char) : Nat :=
  ds.foldl (fun acc d => 10 * acc + (d.toNat - 48)) 0

/-- The reading of a string as a decimal integer of 64 bits: an optional sign,
then one or more decimal digits, the value within `[-2^63, 2^63)`; `none` when
the string is not of that form (a conversion failure). -/
def parseDecimal (s : String) : Option Int :=
  let body : List Char :=
    match s.data with
    | '-' :: ds => ds
    | '+' :: ds => ds
    | ds => ds
  let negative : Bool :=
    match s.data with
    | '-' :: _ => true
    | _ => false
  if body.isEmpty || !body.all Char.isDigit then none
  else
    let v : Int := if negative then -(digitsValue body : Int) else (digitsValue body : Int)
    if -(2 : Int) ^ 63 ≤ v ∧ v < (2 : Int) ^ 63 then some v else none

/-- Modelled from the spec: the helper `atoi`, defined outside the two files.
"Converts numeric-string fields to numeric types; a conversion failure yields
the zero value for that field rather than aborting the whole mapping." -/
def atoi (s : String) : Int :=
  match parseDecimal s with
  | some v => v
  | none => 0

/-! ## Lemmas on the slice read, the switch and the loop -/

theorem sliceAt_eq_some {α : Type} {xs : List α} {i : Int} {x : α}
    (h : sliceAt xs i = some x) : 0 ≤ i ∧ i < xs.length ∧ xs[i.toNat]? = some x := by
  unfold sliceAt at h
  split at h
  · exact absurd h (by simp)
  · rename_i hneg
    have hlt := (List.getElem?_eq_some.mp h).1
    refine ⟨by omega, by omega, h⟩

theorem sliceAt_natCast {α : Type} (xs : List α) (i : Nat) : sliceAt xs (i : Int) = xs[i]? := by
  unfold sliceAt
  simp

theorem sliceAt_eq_none {α : Type} {xs : List α} {i : Int}
    (h : sliceAt xs i = none) : i < 0 ∨ (xs.length : Int) ≤ i := by
  unfold sliceAt at h
  split at h
  · left; assumption
  · right
    have := List.getElem?_eq_none_iff.mp h
    omega

theorem Indexes.supported_iff (ix : Indexes) (c : Index) :
    ix.supported c ↔ (c = ix.DeviantArt ∨ c = ix.EHentai ∨ c = ix.ArtStation ∨ c = ix.Pixiv ∨
      c = ix.AniDB ∨ c = ix.Pawoo ∨ c = ix.Gelbooru ∨ c = ix.Danbooru ∨ c = ix.E621 ∨
      c = ix.PortalGraphics ∨ c = ix.Sankaku ∨ c = ix.FurAffinity ∨ c = ix.SeigaIllustration ∨
      c = ix.HMags ∨ c = ix.IMDb) := by
  unfold Indexes.supported Indexes.supportedCodes
  simp only [List.mem_cons, List.mem_singleton, List.not_mem_nil, or_false]

theorem isSome_ite_some {α : Type} (p : Prop) [Decidable p] (a : α) (o : Option α) :
    (if p then some a else o).isSome = true ↔ p ∨ o.isSome = true := by
  by_cases hp : p <;> simp [hp]

theorem Next.switch_isSome_iff (ix : Indexes) (atof64 : String → float64) (res : result) :
    (Next.switch ix atof64 res).isSome = true ↔ ix.supported res.Header.IndexID := by
  rw [Indexes.supported_iff]
  unfold Next.switch
  generalize res.Header.IndexID = c
  simp only [isSome_ite_some, Option.isSome_none, Bool.false_eq_true, or_false]

theorem Next.switch_eq_none_iff (ix : Indexes) (atof64 : String → float64) (res : result) :
    Next.switch ix atof64 res = none ↔ ¬ ix.supported res.Header.IndexID := by
  rw [← Next.switch_isSome_iff ix atof64 res]
  cases Next.switch ix atof64 res <;> simp

theorem Next.loop_of_some (ix : Indexes) (atof64 : String → float64) (res : result) (v : Sauce)
    (hs : Next.switch ix atof64 res = some v) (n : Nat) (r : ResultsIterator) :
    Next.loop ix atof64 res (n + 1) r = (r, Outcome.returned (some v) none) := by
  simp [Next.loop, hs]

theorem Next.loop_of_none (ix : Indexes) (atof64 : String → float64) (res : result)
    (hs : Next.switch ix atof64 res = none) (n : Nat) (r : ResultsIterator) :
    Next.loop ix atof64 res n r = ({ r with currIndex := r.currIndex + n }, finished) := by
  induction n generalizing r with
  | zero => simp [Next.loop]
  | succ k ih =>
    simp only [Next.loop, hs, ih]
    congr 2
    push_cast
    ring

/-! ## Lemmas on one call of `Next` -/

theorem Next_at_end (ix : Indexes) (atof64 : String → float64) (r : ResultsIterator)
    (h : r.currIndex + 1 = r.results.length) :
    r.Next ix atof64 = ({ r with currIndex := r.currIndex + 1 }, finished) := by
  simp [ResultsIterator.Next, h]

theorem Next_of_some (ix : Indexes) (atof64 : String → float64) (r : ResultsIterator)
    (res : result) (v : Sauce) (hget : sliceAt r.results (r.currIndex + 1) = some res)
    (hs : Next.switch ix atof64 res = some v) :
    r.Next ix atof64 = ({ r with currIndex := r.currIndex + 1 }, Outcome.returned (some v) none) := by
  obtain ⟨h0, hlt, _⟩ := sliceAt_eq_some hget
  have hne : r.currIndex + 1 ≠ (r.results.length : Int) := by omega
  obtain ⟨n, hn⟩ : ∃ n : Nat, ((r.results.length : Int) - (r.currIndex + 1)).toNat = n + 1 :=
    ⟨((r.results.length : Int) - (r.currIndex + 1)).toNat - 1, by omega⟩
  simp only [ResultsIterator.Next, hne, if_false, hget, hn]
  exact Next.loop_of_some ix atof64 res v hs n _

theorem Next_of_none (ix : Indexes) (atof64 : String → float64) (r : ResultsIterator)
    (res : result) (hget : sliceAt r.results (r.currIndex + 1) = some res)
    (hs : Next.switch ix atof64 res = none) :
    r.Next ix atof64 = ({ r with currIndex := r.results.length }, finished) := by
  obtain ⟨h0, hlt, _⟩ := sliceAt_eq_some hget
  have hne : r.currIndex + 1 ≠ (r.results.length : Int) := by omega
  simp only [ResultsIterator.Next, hne, if_false, hget]
  rw [Next.loop_of_none ix atof64 res hs]
  congr 2
  simp only
  omega

theorem Next_out_of_range (ix : Indexes) (atof64 : String → float64) (r : ResultsIterator)
    (hne : r.currIndex + 1 ≠ (r.results.length : Int))
    (hget : sliceAt r.results (r.currIndex + 1) = none) :
    r.Next ix atof64 = ({ r with currIndex := r.currIndex + 1 },
      Outcome.indexOutOfRange (r.currIndex + 1) r.results.length) := by
  simp [ResultsIterator.Next, hne, hget]

theorem sliceAt_of_lt {α : Type} (xs : List α) (i : Int) (h0 : 0 ≤ i) (hlt : i < xs.length) :
    ∃ x, sliceAt xs i = some x ∧ xs[i.toNat]? = some x := by
  have hi : i.toNat < xs.length := by omega
  refine ⟨xs[i.toNat], ?_, List.getElem?_eq_getElem hi⟩
  unfold sliceAt
  rw [if_neg (by omega)]
  exact List.getElem?_eq_getElem hi

theorem sliceAt_mem {α : Type} {xs : List α} {i : Int} {x : α} (h : sliceAt xs i = some x) :
    x ∈ xs :=
  List.getElem?_mem (sliceAt_eq_some h).2.2

/-- On a list whose codes are all supported, a call of `Next` from a cursor
below `len - 1` returns the variant of the record after the cursor and moves
the cursor onto it. -/
theorem Next_step_of_all_supported (ix : Indexes) (atof64 : String → float64)
    (r : ResultsIterator) (hall : ∀ rec ∈ r.results, ix.supported rec.Header.IndexID)
    (hlo : -1 ≤ r.currIndex) (hhi : r.currIndex + 1 < r.results.length) :
    ∃ rec v, r.results[(r.currIndex + 1).toNat]? = some rec ∧
      Next.switch ix atof64 rec = some v ∧
      r.Next ix atof64 =
        ({ r with currIndex := r.currIndex + 1 }, Outcome.returned (some v) none) := by
  obtain ⟨rec, hrec, hget⟩ := sliceAt_of_lt r.results (r.currIndex + 1) (by omega) hhi
  have hsup := hall rec (sliceAt_mem hrec)
  have hsome := (Next.switch_isSome_iff ix atof64 rec).mpr hsup
  obtain ⟨v, hv⟩ := Option.isSome_iff_exists.mp hsome
  exact ⟨rec, v, hget, hv, Next_of_some ix atof64 r rec v hrec hv⟩

/-- On a list whose codes are all supported, `k` calls take the cursor from `c`
to `c + k` as long as `c + k` stays below the length. -/
theorem afterCalls_of_all_supported (ix : Indexes) (atof64 : String → float64) (k : Nat) :
    ∀ r : ResultsIterator, (∀ rec ∈ r.results, ix.supported rec.Header.IndexID) →
      -1 ≤ r.currIndex → r.currIndex + k < r.results.length →
      r.afterCalls ix atof64 k = { r with currIndex := r.currIndex + k } := by
  induction k with
  | zero => intro r _ _ _; simp [ResultsIterator.afterCalls]
  | succ k ih =>
    intro r hall hlo hhi
    obtain ⟨rec, v, _, _, hnext⟩ :=
      Next_step_of_all_supported ix atof64 r hall hlo (by push_cast at hhi; omega)
    simp only [ResultsIterator.afterCalls, hnext]
    have hhi1 : r.currIndex + 1 + (k : Int) < r.results.length := by push_cast at hhi; omega
    rw [ih { currIndex := r.currIndex + 1, results := r.results } hall
      (by show -1 ≤ r.currIndex + 1; omega) hhi1]
    simp only [ResultsIterator.mk.injEq, and_true]
    push_cast
    ring

/-- Whatever the cursor, a call of `Next` that returns a variant returns it with
a nil error, from the switch on the record one position after the cursor, and
moves the cursor onto that record. -/
theorem Next_returned_some (ix : Indexes) (atof64 : String → float64) (r : ResultsIterator)
    (v : Sauce) (e : Option sauceError)
    (hok : (r.Next ix atof64).2 = Outcome.returned (some v) e) :
    e = none ∧
    r.Next ix atof64 = ({ r with currIndex := r.currIndex + 1 }, Outcome.returned (some v) none) ∧
    ∃ rec, sliceAt r.results (r.currIndex + 1) = some rec ∧
      Next.switch ix atof64 rec = some v := by
  by_cases hend : r.currIndex + 1 = r.results.length
  · rw [Next_at_end ix atof64 r hend] at hok
    exact absurd hok (by simp [finished])
  · cases hget : sliceAt r.results (r.currIndex + 1) with
    | none =>
      rw [Next_out_of_range ix atof64 r hend hget] at hok
      exact absurd hok (by simp)
    | some rec =>
      cases hs : Next.switch ix atof64 rec with
      | none =>
        rw [Next_of_none ix atof64 r rec hget hs] at hok
        exact absurd hok (by simp [finished])
      | some w =>
        rw [Next_of_some ix atof64 r rec w hget hs] at hok ⊢
        simp only [Outcome.returned.injEq, Option.some.injEq] at hok
        obtain ⟨hwv, he⟩ := hok
        subst hwv
        exact ⟨he.symm, rfl, rec, rfl, hs⟩

/-- With pairwise distinct codes, each code selects the constructor of its own
case of the switch. -/
theorem Next.switch_dispatch (ix : Indexes) (atof64 : String → float64) (res : result)
    (h : ix.supportedCodes.Nodup) :
    (res.Header.IndexID = ix.DeviantArt →
      Next.switch ix atof64 res = some (res.deviantArt atof64)) ∧
    (res.Header.IndexID = ix.EHentai →
      Next.switch ix atof64 res = some (res.eHentai atof64)) ∧
    (res.Header.IndexID = ix.ArtStation →
      Next.switch ix atof64 res = some (res.artStation atof64)) ∧
    (res.Header.IndexID = ix.Pixiv →
      Next.switch ix atof64 res = some (res.pixiv atof64)) ∧
    (res.Header.IndexID = ix.AniDB →
      Next.switch ix atof64 res = some (res.aniDB atof64)) ∧
    (res.Header.IndexID = ix.Pawoo →
      Next.switch ix atof64 res = some (res.pawoo atof64)) ∧
    (res.Header.IndexID = ix.Gelbooru →
      Next.switch ix atof64 res = some (res.gelbooru atof64)) ∧
    (res.Header.IndexID = ix.Danbooru →
      Next.switch ix atof64 res = some (res.danbooru atof64)) ∧
    (res.Header.IndexID = ix.E621 →
      Next.switch ix atof64 res = some (res.e621 atof64)) ∧
    (res.Header.IndexID = ix.PortalGraphics →
      Next.switch ix atof64 res = some (res.portalGraphics atof64)) ∧
    (res.Header.IndexID = ix.Sankaku →
      Next.switch ix atof64 res = some (res.sankaku atof64)) ∧
    (res.Header.IndexID = ix.FurAffinity →
      Next.switch ix atof64 res = some (res.furAffinity atof64)) ∧
    (res.Header.IndexID = ix.SeigaIllustration →
      Next.switch ix atof64 res = some (res.seigaIllustration atof64)) ∧
    (res.Header.IndexID = ix.HMags →
      Next.switch ix atof64 res = some (res.hMags atof64)) ∧
    (res.Header.IndexID = ix.IMDb →
      Next.switch ix atof64 res = some (res.iMDb atof64)) := by
  simp only [Indexes.supportedCodes, List.nodup_cons, List.mem_cons, List.mem_singleton,
    List.not_mem_nil, or_false, not_or, List.nodup_nil, and_true, not_false_eq_true] at h
  refine ⟨?_, ?_, ?_, ?_, ?_, ?_, ?_, ?_, ?_, ?_, ?_, ?_, ?_, ?_, ?_⟩ <;> intro hc <;>
    simp [Next.switch, hc, h, Ne.symm]

/-- The four ways a call of `Next` can go, by the cursor and the record after it. -/
theorem Next_cases (ix : Indexes) (atof64 : String → float64) (r : ResultsIterator) :
    (r.currIndex + 1 = r.results.length ∧
      r.Next ix atof64 = ({ r with currIndex := r.currIndex + 1 }, finished)) ∨
    ((r.currIndex + 1 < 0 ∨ (r.results.length : Int) < r.currIndex + 1) ∧
      r.Next ix atof64 = ({ r with currIndex := r.currIndex + 1 },
        Outcome.indexOutOfRange (r.currIndex + 1) r.results.length)) ∨
    (∃ rec v, 0 ≤ r.currIndex + 1 ∧ r.currIndex + 1 < r.results.length ∧
      sliceAt r.results (r.currIndex + 1) = some rec ∧ Next.switch ix atof64 rec = some v ∧
      r.Next ix atof64 =
        ({ r with currIndex := r.currIndex + 1 }, Outcome.returned (some v) none)) ∨
    (∃ rec, 0 ≤ r.currIndex + 1 ∧ r.currIndex + 1 < r.results.length ∧
      sliceAt r.results (r.currIndex + 1) = some rec ∧ Next.switch ix atof64 rec = none ∧
      r.Next ix atof64 = ({ r with currIndex := r.results.length }, finished)) := by
  by_cases hend : r.currIndex + 1 = r.results.length
  · exact Or.inl ⟨hend, Next_at_end ix atof64 r hend⟩
  · cases hget : sliceAt r.results (r.currIndex + 1) with
    | none =>
      refine Or.inr (Or.inl ⟨?_, Next_out_of_range ix atof64 r hend hget⟩)
      rcases sliceAt_eq_none hget with h | h
      · exact Or.inl h
      · exact Or.inr (by omega)
    | some rec =>
      obtain ⟨h0, hlt, _⟩ := sliceAt_eq_some hget
      cases hs : Next.switch ix atof64 rec with
      | none =>
        exact Or.inr (Or.inr (Or.inr ⟨rec, h0, hlt, rfl, hs, Next_of_none ix atof64 r rec hget hs⟩))
      | some v =>
        exact Or.inr (Or.inr (Or.inl
          ⟨rec, v, h0, hlt, rfl, hs, Next_of_some ix atof64 r rec v hget hs⟩))

/-- A call of `Next` moves the cursor up by at least one and keeps the list. -/
theorem Next_cursor_step (ix : Indexes) (atof64 : String → float64) (r : ResultsIterator) :
    r.currIndex + 1 ≤ (r.Next ix atof64).1.currIndex ∧
    (r.Next ix atof64).1.results = r.results := by
  rcases Next_cases ix atof64 r with ⟨_, h⟩ | ⟨_, h⟩ | ⟨_, _, _, _, _, _, h⟩ | ⟨_, _, hlt, _, _, h⟩
  · rw [h]; exact ⟨le_refl _, rfl⟩
  · rw [h]; exact ⟨le_refl _, rfl⟩
  · rw [h]; exact ⟨le_refl _, rfl⟩
  · rw [h]; exact ⟨by show r.currIndex + 1 ≤ (r.results.length : Int); omega, rfl⟩

/-- After `k` calls of `Next` the cursor has moved up by at least `k`. -/
theorem afterCalls_cursor_ge (ix : Indexes) (atof64 : String → float64) (k : Nat) :
    ∀ r : ResultsIterator, r.currIndex + k ≤ (r.afterCalls ix atof64 k).currIndex := by
  induction k with
  | zero => intro r; simp [ResultsIterator.afterCalls]
  | succ k ih =>
    intro r
    have h1 := (Next_cursor_step ix atof64 r).1
    have h2 := ih (r.Next ix atof64).1
    simp only [ResultsIterator.afterCalls]
    push_cast
    omega

theorem ite_some_cases {α : Type} {p : Prop} [Decidable p] {a : α} {o : Option α} {v : α}
    (h : (if p then some a else o) = some v) : (p ∧ a = v) ∨ (¬ p ∧ o = some v) := by
  by_cases hp : p
  · rw [if_pos hp] at h
    exact Or.inl ⟨hp, Option.some.inj h⟩
  · rw [if_neg hp] at h
    exact Or.inr ⟨hp, h⟩

/-- A variant returned by the switch embeds the header `toSauceHeader` makes from
the record, carries the record's payload, and belongs to the source whose code
the record bears. -/
theorem Next.switch_some_spec (ix : Indexes) (atof64 : String → float64) (res : result)
    (v : Sauce) (hs : Next.switch ix atof64 res = some v) :
    v.header = res.Header.toSauceHeader atof64 ∧ v.fields = res.sourceFields ∧
    v.index ix = res.Header.IndexID := by
  unfold Next.switch at hs
  iterate 15
    obtain ⟨hc, hv⟩ | ⟨_, hs2⟩ := ite_some_cases hs
    · subst hv
      exact ⟨rfl, rfl, hc.symm⟩
    replace hs := hs2
    clear hs2
  exact absurd hs (by simp)

/-! ## The claims -/

/-- C1 (the code departs from the claim): on the raw list
`[unsupported, danbooru, unsupported, pixiv]` the first call of `Next` on the
iterator built by `newResponse` does not return the Danbooru variant: the loop
keeps testing the unsupported record fetched before it, runs the cursor up to
the length 4 and the call fails with `IteratorFinished`; the second call reads
the list at index 5 and panics. -/
theorem Next_mixed_first_call_finished :
    ∃ resp it, newResponse atoi zeroAtof64 mixedResponse = some resp ∧
      resp.Results = some it ∧
      ¬ saucenaoIndexes.supported 37 ∧ saucenaoIndexes.supported 9 ∧
      saucenaoIndexes.supported 5 ∧
      it.call saucenaoIndexes zeroAtof64 1 = finished ∧
      it.call saucenaoIndexes zeroAtof64 1 ≠
        Outcome.returned (some ((recordOf 9).danbooru zeroAtof64)) none ∧
      (it.afterCalls saucenaoIndexes zeroAtof64 1).currIndex = 4 ∧
      it.call saucenaoIndexes zeroAtof64 2 = Outcome.indexOutOfRange 5 4 :=
  ⟨_, _, rfl, rfl, by decide, by decide, by decide, by decide, by decide, by decide, by decide⟩

/-- C2: on a raw result list of length N whose index codes are all supported, the
iterator built by `newResponse` answers the k-th call of `Next`, for every k from
1 to N, with a nil error and a variant built from the record at position k - 1:
the variant embeds the header `toSauceHeader` makes from that record, carries
that record's payload and belongs to the source whose code that record bears; and
the iterator answers call N + 1 with `IteratorFinished`. -/
theorem Next_all_supported (ix : Indexes) (atoi : String → Int) (atof64 : String → float64)
    (r : sauceResponse) (resp : Response) (it : ResultsIterator)
    (hnew : newResponse atoi atof64 r = some resp) (hit : resp.Results = some it)
    (hall : ∀ rec ∈ r.Results, ix.supported rec.Header.IndexID) :
    (∀ k : Nat, 1 ≤ k → k ≤ r.Results.length →
      ∃ rec v, r.Results[k - 1]? = some rec ∧
        it.call ix atof64 k = Outcome.returned (some v) none ∧
        v.header = rec.Header.toSauceHeader atof64 ∧ v.fields = rec.sourceFields ∧
        v.index ix = rec.Header.IndexID) ∧
    it.call ix atof64 (r.Results.length + 1) = finished := by
  have hiter : it = { currIndex := -1, results := r.Results } := by
    unfold newResponse at hnew
    split at hnew
    · exact absurd hnew (by simp)
    · have h1 := Option.some.inj hnew
      rw [← h1] at hit
      exact (Option.some.inj hit).symm
  subst hiter
  constructor
  · intro k hk1 hkN
    have hafter := afterCalls_of_all_supported ix atof64 (k - 1)
      { currIndex := -1, results := r.Results } hall (by simp) (by simp only; omega)
    obtain ⟨rec, v, hget, hv, hnext⟩ := Next_step_of_all_supported ix atof64
      { currIndex := -1 + ((k - 1 : Nat) : Int), results := r.Results } hall
      (by simp only; omega) (by simp only; omega)
    obtain ⟨hhead, hfields, hindex⟩ := Next.switch_some_spec ix atof64 rec v hv
    refine ⟨rec, v, ?_, ?_, hhead, hfields, hindex⟩
    · have hidx : ((-1 : Int) + ((k - 1 : Nat) : Int) + 1).toNat = k - 1 := by omega
      simpa only [hidx] using hget
    · unfold ResultsIterator.call
      rw [hafter, hnext]
  · have hafter := afterCalls_of_all_supported ix atof64 r.Results.length
      { currIndex := -1, results := r.Results } hall (by simp) (by simp only; omega)
    unfold ResultsIterator.call
    rw [Nat.add_sub_cancel, hafter, Next_at_end ix atof64 _ (by simp only; omega)]

/-- C2, at a concrete input: on the list `[danbooru, pixiv]` call 1 returns the
Danbooru variant of the first record, call 2 the Pixiv variant of the second,
call 3 fails with `IteratorFinished`. -/
theorem Next_all_supported_witness :
    (∀ rec ∈ danbooruPixiv.Results, saucenaoIndexes.supported rec.Header.IndexID) ∧
    ResultsIterator.call saucenaoIndexes zeroAtof64 1
      { currIndex := -1, results := danbooruPixiv.Results } =
      Outcome.returned
        (some (Sauce.Danbooru ((recordOf 9).Header.toSauceHeader zeroAtof64) "")) none ∧
    ResultsIterator.call saucenaoIndexes zeroAtof64 2
      { currIndex := -1, results := danbooruPixiv.Results } =
      Outcome.returned
        (some (Sauce.Pixiv ((recordOf 5).Header.toSauceHeader zeroAtof64) "")) none ∧
    ((∀ k : Nat, 1 ≤ k → k ≤ danbooruPixiv.Results.length →
      ∃ rec v, danbooruPixiv.Results[k - 1]? = some rec ∧
        ResultsIterator.call saucenaoIndexes zeroAtof64 k
          { currIndex := -1, results := danbooruPixiv.Results } =
          Outcome.returned (some v) none ∧
        v.header = rec.Header.toSauceHeader zeroAtof64 ∧ v.fields = rec.sourceFields ∧
        v.index saucenaoIndexes = rec.Header.IndexID) ∧
    ResultsIterator.call saucenaoIndexes zeroAtof64 (danbooruPixiv.Results.length + 1)
      { currIndex := -1, results := danbooruPixiv.Results } = finished) :=
  ⟨by decide, by decide, by decide,
   Next_all_supported saucenaoIndexes atoi zeroAtof64 danbooruPixiv _
     { currIndex := -1, results := danbooruPixiv.Results } rfl rfl (by decide)⟩

/-- C3 (the code departs from the claim): on the empty result list the first call
of `Next` fails with `IteratorFinished` and leaves the cursor at 0, the length;
the second call increments it to 1, passes the test `currIndex == len` and panics
on the read of `results[1]` instead of failing with `IteratorFinished` again. -/
theorem Next_after_finished_panics :
    ∃ resp it, newResponse atoi zeroAtof64 noResults = some resp ∧
      resp.Results = some it ∧
      it.call saucenaoIndexes zeroAtof64 1 = finished ∧
      (it.afterCalls saucenaoIndexes zeroAtof64 1).currIndex = 0 ∧
      it.call saucenaoIndexes zeroAtof64 2 = Outcome.indexOutOfRange 1 0 ∧
      it.call saucenaoIndexes zeroAtof64 2 ≠ finished :=
  ⟨_, _, rfl, rfl, by decide, by decide, by decide, by decide⟩

/-- C4 (the code departs from the claim): on the list `[danbooru]` the iterator
built by `newResponse` returns the Danbooru variant, then fails with
`IteratorFinished`, and the third call neither returns a variant nor returns an
error that unwraps to `ErrIteratorFinished`: it panics on the read of
`results[2]` in a list of length 1. -/
theorem Next_third_call_out_of_range :
    ∃ resp it, newResponse atoi zeroAtof64 oneDanbooru = some resp ∧
      resp.Results = some it ∧
      it.call saucenaoIndexes zeroAtof64 1 =
        Outcome.returned (some ((recordOf 9).danbooru zeroAtof64)) none ∧
      it.call saucenaoIndexes zeroAtof64 2 = finished ∧
      it.call saucenaoIndexes zeroAtof64 3 = Outcome.indexOutOfRange 2 1 ∧
      (∀ v, it.call saucenaoIndexes zeroAtof64 3 ≠ Outcome.returned (some v) none) ∧
      (∀ e : sauceError, e.Unwrap = error.ErrIteratorFinished →
        it.call saucenaoIndexes zeroAtof64 3 ≠ Outcome.returned none (some e)) :=
  ⟨_, _, rfl, rfl, by decide, by decide, by decide,
   fun v h => by
    have h3 : ResultsIterator.call saucenaoIndexes zeroAtof64 3
        { currIndex := -1, results := oneDanbooru.Results } = Outcome.indexOutOfRange 2 1 := by
      decide
    rw [h3] at h
    exact Outcome.noConfusion h,
   fun e _ h => by
    have h3 : ResultsIterator.call saucenaoIndexes zeroAtof64 3
        { currIndex := -1, results := oneDanbooru.Results } = Outcome.indexOutOfRange 2 1 := by
      decide
    rw [h3] at h
    exact Outcome.noConfusion h⟩

/-- C5: from a cursor in `[-1, len)`, whenever `Next` returns a variant, the error
is nil, the result list is untouched, and the variant is the one the switch builds
from the record at the cursor position the call leaves, whose index code is one of
the fifteen supported codes. -/
theorem Next_success_from_supported (ix : Indexes) (atof64 : String → float64)
    (r : ResultsIterator) (v : Sauce) (e : Option sauceError)
    (hlo : -1 ≤ r.currIndex) (hhi : r.currIndex < r.results.length)
    (hok : (r.Next ix atof64).2 = Outcome.returned (some v) e) :
    e = none ∧ (r.Next ix atof64).1.results = r.results ∧
    ∃ rec, sliceAt r.results (r.Next ix atof64).1.currIndex = some rec ∧
      ix.supported rec.Header.IndexID ∧ Next.switch ix atof64 rec = some v := by
  by_cases hend : r.currIndex + 1 = r.results.length
  · rw [Next_at_end ix atof64 r hend] at hok
    exact absurd hok (by simp [finished])
  · obtain ⟨rec, hrec, _⟩ := sliceAt_of_lt r.results (r.currIndex + 1) (by omega) (by omega)
    cases hs : Next.switch ix atof64 rec with
    | none =>
      rw [Next_of_none ix atof64 r rec hrec hs] at hok
      exact absurd hok (by simp [finished])
    | some w =>
      rw [Next_of_some ix atof64 r rec w hrec hs] at hok ⊢
      simp only [Outcome.returned.injEq, Option.some.injEq] at hok
      obtain ⟨hwv, he⟩ := hok
      subst hwv
      refine ⟨he.symm, rfl, rec, hrec, ?_, hs⟩
      exact (Next.switch_isSome_iff ix atof64 rec).mp (by simp [hs])

/-- C5, at a concrete input: the list `[danbooru]` with the cursor at -1. -/
theorem Next_success_from_supported_witness :
    (-1 : Int) ≤ (ResultsIterator.mk (-1) [recordOf 9]).currIndex ∧
    (ResultsIterator.mk (-1) [recordOf 9]).currIndex <
      ((ResultsIterator.mk (-1) [recordOf 9]).results.length : Int) ∧
    (none : Option sauceError) = none ∧
    ((ResultsIterator.mk (-1) [recordOf 9]).Next saucenaoIndexes zeroAtof64).1.results =
      [recordOf 9] ∧
    ∃ rec, sliceAt [recordOf 9]
        ((ResultsIterator.mk (-1) [recordOf 9]).Next saucenaoIndexes zeroAtof64).1.currIndex =
          some rec ∧
      saucenaoIndexes.supported rec.Header.IndexID ∧
      Next.switch saucenaoIndexes zeroAtof64 rec = some ((recordOf 9).danbooru zeroAtof64) :=
  ⟨by decide, by decide,
   Next_success_from_supported saucenaoIndexes zeroAtof64 (ResultsIterator.mk (-1) [recordOf 9])
     ((recordOf 9).danbooru zeroAtof64) none (by decide) (by decide) (by decide)⟩

/-- C6: `CanPerformMoreCalls` returns true exactly when `ShortLimit > 0` and
`LongRemaining > 0`; it returns false when `ShortLimit = 0` and
`LongRemaining = 100`, whatever the other fields are; and the receiver after the
call is the receiver before it. -/
theorem CanPerformMoreCalls_iff (r : Response) :
    (r.CanPerformMoreCalls.1 = true ↔ r.ShortLimit > 0 ∧ r.LongRemaining > 0) ∧
    ({ r with ShortLimit := 0, LongRemaining := 100 } : Response).CanPerformMoreCalls.1 = false ∧
    r.CanPerformMoreCalls.2 = r := by
  refine ⟨?_, ?_, rfl⟩
  · simp [Response.CanPerformMoreCalls]
  · simp [Response.CanPerformMoreCalls]

/-- C7: the `Hidden` flag of the common header built by `toSauceHeader` is true
exactly when the raw `Hidden` equals 1; the raw values 0, 2 and -1 give false. -/
theorem toSauceHeader_Hidden_iff (atof64 : String → float64) (h : resultHeader) :
    ((h.toSauceHeader atof64).Hidden = true ↔ h.Hidden = 1) ∧
    ((h.toSauceHeader atof64).Hidden = false ↔ h.Hidden ≠ 1) ∧
    (({ h with Hidden := 1 } : resultHeader).toSauceHeader atof64).Hidden = true ∧
    (({ h with Hidden := 0 } : resultHeader).toSauceHeader atof64).Hidden = false ∧
    (({ h with Hidden := 2 } : resultHeader).toSauceHeader atof64).Hidden = false ∧
    (({ h with Hidden := -1 } : resultHeader).toSauceHeader atof64).Hidden = false := by
  refine ⟨?_, ?_, ?_, ?_, ?_, ?_⟩ <;> simp [resultHeader.toSauceHeader]

/-- C8: with the helper `atoi` of the specification, `newResponse` on a raw
response with a non-nil header returns a `Response`; each of `UserID`,
`AccountType`, `ShortLimit`, `LongLimit` that is not a decimal integer becomes 0,
each one that is a decimal integer becomes its value, independently of the other
three, and the remaining fields are filled from the raw header as usual. -/
theorem newResponse_permissive (atof64 : String → float64) (h : responseHeader)
    (rs : List result) :
    ∃ resp, newResponse atoi atof64 { Header := some h, Results := rs } = some resp ∧
      (parseDecimal h.UserID = none → resp.UserID = 0) ∧
      (parseDecimal h.AccountType = none → resp.AccountType = 0) ∧
      (parseDecimal h.ShortLimit = none → resp.ShortLimit = 0) ∧
      (parseDecimal h.LongLimit = none → resp.LongLimit = 0) ∧
      (∀ v, parseDecimal h.UserID = some v → resp.UserID = v) ∧
      (∀ v, parseDecimal h.AccountType = some v → resp.AccountType = v) ∧
      (∀ v, parseDecimal h.ShortLimit = some v → resp.ShortLimit = v) ∧
      (∀ v, parseDecimal h.LongLimit = some v → resp.LongLimit = v) ∧
      resp.ShortRemaining = h.ShortRemaining ∧ resp.LongRemaining = h.LongRemaining ∧
      resp.ResultsRequested = h.ResultsRequested ∧ resp.ResultsReturned = h.ResultsReturned ∧
      resp.SearchDepth = atof64 h.SearchDepth ∧
      resp.MinimumSimilarity = h.MinimumSimilarity ∧ resp.QueryImage = h.QueryImage ∧
      resp.QueryImageDisplay = h.QueryImageDisplay ∧
      resp.Results = some { currIndex := -1, results := rs } ∧ resp.header = some h := by
  refine ⟨_, rfl, ?_, ?_, ?_, ?_, ?_, ?_, ?_, ?_, rfl, rfl, rfl, rfl, rfl, rfl, rfl, rfl, rfl, rfl⟩
  all_goals first
    | (intro hp; show atoi _ = 0; unfold atoi; rw [hp])
    | (intro v hp; show atoi _ = v; unfold atoi; rw [hp])

/-- C8, at a concrete input: a header with `UserID = "abc"` and
`ShortLimit = "4"` maps to `UserID = 0` and `ShortLimit = 4`. -/
theorem newResponse_permissive_witness :
    parseDecimal "abc" = none ∧ parseDecimal "4" = some 4 ∧
    ∃ resp, newResponse atoi zeroAtof64
        { Header := some { emptyHeader with UserID := "abc", ShortLimit := "4" },
          Results := [] } = some resp ∧
      resp.UserID = 0 ∧ resp.ShortLimit = 4 := by
  obtain ⟨resp, hnew, hu, _, _, _, _, _, hs, _⟩ :=
    newResponse_permissive zeroAtof64 { emptyHeader with UserID := "abc", ShortLimit := "4" } []
  exact ⟨by decide, by decide, resp, hnew, hu (by decide), hs 4 (by decide)⟩

/-- C9: for a raw response with a non-nil header, whatever the helpers `atoi` and
`atof64` compute, `newResponse` returns a `Response` whose iterator has cursor -1
and the raw result list as its result list (the same records in the same order,
hence the same length). -/
theorem newResponse_iterator (atoi : String → Int) (atof64 : String → float64)
    (h : responseHeader) (rs : List result) :
    ∃ resp it, newResponse atoi atof64 { Header := some h, Results := rs } = some resp ∧
      resp.Results = some it ∧ it.currIndex = -1 ∧ it.results = rs ∧
      it.results.length = rs.length :=
  ⟨_, _, rfl, rfl, rfl, rfl, rfl⟩

/-- C10: for a raw response with a non-nil header, whatever the helpers `atoi`
and `atof64` compute, the `Response` built by `newResponse` has `ShortRemaining`,
`LongRemaining`, `ResultsRequested`, `ResultsReturned`, `MinimumSimilarity`,
`QueryImage` and `QueryImageDisplay` equal to the raw header fields of the same
names, and retains the raw header itself. -/
theorem newResponse_copies_fields (atoi : String → Int) (atof64 : String → float64)
    (h : responseHeader) (rs : List result) :
    ∃ resp, newResponse atoi atof64 { Header := some h, Results := rs } = some resp ∧
      resp.ShortRemaining = h.ShortRemaining ∧ resp.LongRemaining = h.LongRemaining ∧
      resp.ResultsRequested = h.ResultsRequested ∧ resp.ResultsReturned = h.ResultsReturned ∧
      resp.MinimumSimilarity = h.MinimumSimilarity ∧ resp.QueryImage = h.QueryImage ∧
      resp.QueryImageDisplay = h.QueryImageDisplay ∧ resp.header = some h :=
  ⟨_, rfl, rfl, rfl, rfl, rfl, rfl, rfl, rfl, rfl⟩

/-- C11: with pairwise distinct index codes, whenever `Next` returns a variant, the
record at the cursor it leaves has a supported code c, the variant is the one the
case of c in the switch builds (the DeviantArt code gives the DeviantArt variant,
and so on for the fifteen codes), that variant embeds the header `toSauceHeader`
makes from the record, and this header has `IndexID = c` and the raw header's
`Thumbnail`, `IndexName` and `Dupes`. -/
theorem Next_emits_dispatched_variant (ix : Indexes) (atof64 : String → float64)
    (r : ResultsIterator) (v : Sauce) (e : Option sauceError)
    (hnd : ix.supportedCodes.Nodup)
    (hok : (r.Next ix atof64).2 = Outcome.returned (some v) e) :
    ∃ rec, sliceAt r.results (r.Next ix atof64).1.currIndex = some rec ∧
      ix.supported rec.Header.IndexID ∧
      (rec.Header.IndexID = ix.DeviantArt →
        v = Sauce.DeviantArt (rec.Header.toSauceHeader atof64) rec.sourceFields) ∧
      (rec.Header.IndexID = ix.EHentai →
        v = Sauce.EHentai (rec.Header.toSauceHeader atof64) rec.sourceFields) ∧
      (rec.Header.IndexID = ix.ArtStation →
        v = Sauce.ArtStation (rec.Header.toSauceHeader atof64) rec.sourceFields) ∧
      (rec.Header.IndexID = ix.Pixiv →
        v = Sauce.Pixiv (rec.Header.toSauceHeader atof64) rec.sourceFields) ∧
      (rec.Header.IndexID = ix.AniDB →
        v = Sauce.AniDB (rec.Header.toSauceHeader atof64) rec.sourceFields) ∧
      (rec.Header.IndexID = ix.Pawoo →
        v = Sauce.Pawoo (rec.Header.toSauceHeader atof64) rec.sourceFields) ∧
      (rec.Header.IndexID = ix.Gelbooru →
        v = Sauce.Gelbooru (rec.Header.toSauceHeader atof64) rec.sourceFields) ∧
      (rec.Header.IndexID = ix.Danbooru →
        v = Sauce.Danbooru (rec.Header.toSauceHeader atof64) rec.sourceFields) ∧
      (rec.Header.IndexID = ix.E621 →
        v = Sauce.E621 (rec.Header.toSauceHeader atof64) rec.sourceFields) ∧
      (rec.Header.IndexID = ix.PortalGraphics →
        v = Sauce.PortalGraphics (rec.Header.toSauceHeader atof64) rec.sourceFields) ∧
      (rec.Header.IndexID = ix.Sankaku →
        v = Sauce.Sankaku (rec.Header.toSauceHeader atof64) rec.sourceFields) ∧
      (rec.Header.IndexID = ix.FurAffinity →
        v = Sauce.FurAffinity (rec.Header.toSauceHeader atof64) rec.sourceFields) ∧
      (rec.Header.IndexID = ix.SeigaIllustration →
        v = Sauce.SeigaIllustration (rec.Header.toSauceHeader atof64) rec.sourceFields) ∧
      (rec.Header.IndexID = ix.HMags →
        v = Sauce.HMags (rec.Header.toSauceHeader atof64) rec.sourceFields) ∧
      (rec.Header.IndexID = ix.IMDb →
        v = Sauce.IMDb (rec.Header.toSauceHeader atof64) rec.sourceFields) ∧
      (rec.Header.toSauceHeader atof64).IndexID = rec.Header.IndexID ∧
      (rec.Header.toSauceHeader atof64).Thumbnail = rec.Header.Thumbnail ∧
      (rec.Header.toSauceHeader atof64).IndexName = rec.Header.IndexName ∧
      (rec.Header.toSauceHeader atof64).Dupes = rec.Header.Dupes := by
  obtain ⟨_, hnext, rec, hget, hs⟩ := Next_returned_some ix atof64 r v e hok
  have hsup : ix.supported rec.Header.IndexID :=
    (Next.switch_isSome_iff ix atof64 rec).mp (by simp [hs])
  have hd := Next.switch_dispatch ix atof64 rec hnd
  rw [hs] at hd
  simp only [Option.some.injEq] at hd
  obtain ⟨d1, d2, d3, d4, d5, d6, d7, d8, d9, d10, d11, d12, d13, d14, d15⟩ := hd
  rw [hnext]
  exact ⟨rec, hget, hsup, d1, d2, d3, d4, d5, d6, d7, d8, d9, d10, d11, d12, d13, d14, d15,
    rfl, rfl, rfl, rfl⟩

/-- C11, at a concrete input: the first call on `[danbooru]` with the published
codes. -/
theorem Next_emits_dispatched_variant_witness :
    saucenaoIndexes.supportedCodes.Nodup ∧
    ((ResultsIterator.mk (-1) [recordOf 9]).Next saucenaoIndexes zeroAtof64).2 =
      Outcome.returned (some ((recordOf 9).danbooru zeroAtof64)) none ∧
    ∃ rec, sliceAt [recordOf 9]
        ((ResultsIterator.mk (-1) [recordOf 9]).Next saucenaoIndexes zeroAtof64).1.currIndex =
          some rec ∧
      (rec.Header.IndexID = saucenaoIndexes.Danbooru →
        (recordOf 9).danbooru zeroAtof64 =
          Sauce.Danbooru (rec.Header.toSauceHeader zeroAtof64) rec.sourceFields) ∧
      (rec.Header.toSauceHeader zeroAtof64).IndexID = rec.Header.IndexID := by
  obtain ⟨rec, hget, _, _, _, _, _, _, _, _, h8, _, _, _, _, _, _, _, hid, _⟩ :=
    Next_emits_dispatched_variant saucenaoIndexes zeroAtof64 (ResultsIterator.mk (-1) [recordOf 9])
      ((recordOf 9).danbooru zeroAtof64) none (by decide) (by decide)
  exact ⟨by decide, by decide, rec, hget, h8, hid⟩

/-- C12: the `AccountType` constants are `Unknown = -1`, `AnonymousAccount = 0`,
`NormalAccount = 1`, `PremiumAccount = 2`, four pairwise distinct values. -/
theorem AccountType_values :
    Unknown = -1 ∧ AnonymousAccount = 0 ∧ NormalAccount = 1 ∧ PremiumAccount = 2 ∧
    [Unknown, AnonymousAccount, NormalAccount, PremiumAccount].Nodup := by
  decide

/-- C13 (the code departs from the claim): on `[unsupported, danbooru]` with the
cursor at -1 the cursor is in range and the first supported record after it is
the Danbooru record at position 1, yet `Next` does not return its variant with
the cursor at 1: it fails with `IteratorFinished` and leaves the cursor at 2. -/
theorem Next_does_not_skip_to_supported :
    (-1 : Int) ≤ unsupportedThenDanbooru.currIndex ∧
    unsupportedThenDanbooru.currIndex < (unsupportedThenDanbooru.results.length : Int) ∧
    sliceAt unsupportedThenDanbooru.results 0 = some (recordOf 37) ∧
    ¬ saucenaoIndexes.supported (recordOf 37).Header.IndexID ∧
    sliceAt unsupportedThenDanbooru.results 1 = some (recordOf 9) ∧
    saucenaoIndexes.supported (recordOf 9).Header.IndexID ∧
    Next.switch saucenaoIndexes zeroAtof64 (recordOf 9) =
      some ((recordOf 9).danbooru zeroAtof64) ∧
    (unsupportedThenDanbooru.Next saucenaoIndexes zeroAtof64).2 = finished ∧
    (unsupportedThenDanbooru.Next saucenaoIndexes zeroAtof64).2 ≠
      Outcome.returned (some ((recordOf 9).danbooru zeroAtof64)) none ∧
    (unsupportedThenDanbooru.Next saucenaoIndexes zeroAtof64).1.currIndex = 2 := by
  decide

/-- C14 (the code departs from the claim): on `[danbooru, pixiv]` the iterator
built by `newResponse` keeps its cursor within `[-1, 2]` for three calls (0, 1,
then 2 with `IteratorFinished`), and the fourth call, which panics on
`results[3]`, has already incremented the cursor to 3, above the length 2. -/
theorem afterCalls_cursor_exceeds_length :
    ∃ resp it, newResponse atoi zeroAtof64 danbooruPixiv = some resp ∧
      resp.Results = some it ∧ it.results.length = 2 ∧
      (it.afterCalls saucenaoIndexes zeroAtof64 1).currIndex = 0 ∧
      (it.afterCalls saucenaoIndexes zeroAtof64 2).currIndex = 1 ∧
      (it.afterCalls saucenaoIndexes zeroAtof64 3).currIndex = 2 ∧
      it.call saucenaoIndexes zeroAtof64 3 = finished ∧
      it.call saucenaoIndexes zeroAtof64 4 = Outcome.indexOutOfRange 3 2 ∧
      (it.afterCalls saucenaoIndexes zeroAtof64 4).currIndex = 3 ∧
      ¬ (it.afterCalls saucenaoIndexes zeroAtof64 4).currIndex ≤
        ((it.afterCalls saucenaoIndexes zeroAtof64 4).results.length : Int) :=
  ⟨_, _, rfl, rfl, by decide, by decide, by decide, by decide, by decide, by decide, by decide,
   by decide⟩

/-- C15: for every iterator state whose cursor is below `maxInt` (the one value at
which Go's increment wraps), the increment of line 126 does not wrap and,
whatever the call of `Next` does, the cursor after the call is at least the
cursor before it plus one and the result list is the same; hence over k
consecutive calls, each entered with the cursor below `maxInt`, the cursor rises
by at least k: it is never reset. -/
theorem Next_cursor_increases (ix : Indexes) (atof64 : String → float64) (r : ResultsIterator)
    (hmax : r.currIndex < maxInt) :
    r.currIndex + 1 ≤ maxInt ∧
    r.currIndex + 1 ≤ (r.Next ix atof64).1.currIndex ∧
    (r.Next ix atof64).1.results = r.results ∧
    ∀ k : Nat, (∀ j : Nat, j < k → (r.afterCalls ix atof64 j).currIndex < maxInt) →
      r.currIndex + k ≤ (r.afterCalls ix atof64 k).currIndex :=
  ⟨by omega, (Next_cursor_step ix atof64 r).1, (Next_cursor_step ix atof64 r).2,
   fun k _ => afterCalls_cursor_ge ix atof64 k r⟩

/-- C15, at a concrete input: the cursor at -1 over `[unsupported, danbooru]`,
taken to 2 by one call. -/
theorem Next_cursor_increases_witness :
    unsupportedThenDanbooru.currIndex < maxInt ∧
    unsupportedThenDanbooru.currIndex + 1 ≤
      (unsupportedThenDanbooru.Next saucenaoIndexes zeroAtof64).1.currIndex ∧
    (unsupportedThenDanbooru.Next saucenaoIndexes zeroAtof64).1.currIndex = 2 :=
  ⟨by decide,
   (Next_cursor_increases saucenaoIndexes zeroAtof64 unsupportedThenDanbooru (by decide)).2.1,
   by decide⟩

/-- C16: from a cursor in `[-1, len)` with no supported code at any position after
the cursor, `Next` fails with `IteratorFinished` and leaves the cursor at the
length of the result list. -/
theorem Next_exhaustion (ix : Indexes) (atof64 : String → float64) (r : ResultsIterator)
    (hlo : -1 ≤ r.currIndex) (hhi : r.currIndex < r.results.length)
    (hnone : ∀ rec ∈ r.results.drop (r.currIndex + 1).toNat, ¬ ix.supported rec.Header.IndexID) :
    r.Next ix atof64 = ({ r with currIndex := r.results.length }, finished) := by
  by_cases hend : r.currIndex + 1 = r.results.length
  · rw [Next_at_end ix atof64 r hend, hend]
  · obtain ⟨rec, hrec, hget⟩ :=
      sliceAt_of_lt r.results (r.currIndex + 1) (by omega) (by omega)
    have hmem : rec ∈ r.results.drop (r.currIndex + 1).toNat := by
      apply List.getElem?_mem (n := 0)
      rw [List.getElem?_drop]
      simpa using hget
    have hs := (Next.switch_eq_none_iff ix atof64 rec).mpr (hnone rec hmem)
    exact Next_of_none ix atof64 r rec hrec hs

/-- C16, at a concrete input: the cursor on a Danbooru record followed by two
unsupported records. -/
theorem Next_exhaustion_witness :
    (-1 : Int) ≤ danbooruThenUnsupported.currIndex ∧
    danbooruThenUnsupported.currIndex < (danbooruThenUnsupported.results.length : Int) ∧
    (∀ rec ∈ danbooruThenUnsupported.results.drop (danbooruThenUnsupported.currIndex + 1).toNat,
      ¬ saucenaoIndexes.supported rec.Header.IndexID) ∧
    danbooruThenUnsupported.Next saucenaoIndexes zeroAtof64 =
      ({ danbooruThenUnsupported with currIndex := 3 }, finished) :=
  ⟨by decide, by decide, by decide,
   Next_exhaustion saucenaoIndexes zeroAtof64 danbooruThenUnsupported (by decide) (by decide)
     (by decide)⟩

/-- C17: when the record one position after the cursor exists (so
`cursor + 1 < len`) and has an unsupported code, `Next` fails with
`IteratorFinished` and leaves the cursor at the length of the list; any other
iterator with the same cursor, the same length and an unsupported record after
its cursor gets the same outcome and the same cursor, whatever its later records
are. -/
theorem Next_unsupported_after_cursor (ix : Indexes) (atof64 : String → float64)
    (r : ResultsIterator) (rec : result)
    (hget : sliceAt r.results (r.currIndex + 1) = some rec)
    (hun : ¬ ix.supported rec.Header.IndexID) :
    r.currIndex + 1 < r.results.length ∧
    r.Next ix atof64 = ({ r with currIndex := r.results.length }, finished) ∧
    ∀ (q : ResultsIterator) (rec2 : result), q.currIndex = r.currIndex →
      q.results.length = r.results.length →
      sliceAt q.results (q.currIndex + 1) = some rec2 → ¬ ix.supported rec2.Header.IndexID →
      (q.Next ix atof64).2 = (r.Next ix atof64).2 ∧
      (q.Next ix atof64).1.currIndex = (r.Next ix atof64).1.currIndex := by
  have hs := (Next.switch_eq_none_iff ix atof64 rec).mpr hun
  have hr := Next_of_none ix atof64 r rec hget hs
  refine ⟨(sliceAt_eq_some hget).2.1, hr, ?_⟩
  intro q rec2 _ hlen hget2 hun2
  have hs2 := (Next.switch_eq_none_iff ix atof64 rec2).mpr hun2
  rw [Next_of_none ix atof64 q rec2 hget2 hs2, hr]
  exact ⟨rfl, by simp only [hlen]⟩

/-- C17, at a concrete input: `[unsupported, pixiv, danbooru]` with the cursor at
-1, compared with a list of three unsupported records. -/
theorem Next_unsupported_after_cursor_witness :
    sliceAt unsupportedThenTwo.results (unsupportedThenTwo.currIndex + 1) = some (recordOf 37) ∧
    ¬ saucenaoIndexes.supported (recordOf 37).Header.IndexID ∧
    unsupportedThenTwo.currIndex + 1 < (unsupportedThenTwo.results.length : Int) ∧
    unsupportedThenTwo.Next saucenaoIndexes zeroAtof64 =
      ({ unsupportedThenTwo with currIndex := 3 }, finished) ∧
    ((ResultsIterator.mk (-1) [recordOf 37, recordOf 37, recordOf 37]).Next
        saucenaoIndexes zeroAtof64).2 =
      (unsupportedThenTwo.Next saucenaoIndexes zeroAtof64).2 := by
  obtain ⟨hlt, hnext, hind⟩ :=
    Next_unsupported_after_cursor saucenaoIndexes zeroAtof64 unsupportedThenTwo (recordOf 37)
      (by decide) (by decide)
  exact ⟨by decide, by decide, hlt, hnext,
    (hind (ResultsIterator.mk (-1) [recordOf 37, recordOf 37, recordOf 37]) (recordOf 37)
      (by decide) (by decide) (by decide) (by decide)).1⟩

/-- C18: a call of `Next` stays clear of an out-of-range read of the result list
exactly when the cursor at entry lies in `[-1, len - 1]`; for any other cursor the
call increments the cursor and panics on the read at the incremented cursor; in
particular from a cursor equal to `len` it reads at `len + 1`. -/
theorem Next_bounds_safety (ix : Indexes) (atof64 : String → float64) (r : ResultsIterator) :
    ((∀ i n, (r.Next ix atof64).2 ≠ Outcome.indexOutOfRange i n) ↔
      (-1 ≤ r.currIndex ∧ r.currIndex ≤ (r.results.length : Int) - 1)) ∧
    (¬ (-1 ≤ r.currIndex ∧ r.currIndex ≤ (r.results.length : Int) - 1) →
      r.Next ix atof64 = ({ r with currIndex := r.currIndex + 1 },
        Outcome.indexOutOfRange (r.currIndex + 1) r.results.length)) ∧
    (ResultsIterator.mk r.results.length r.results).Next ix atof64 =
      (ResultsIterator.mk (r.results.length + 1) r.results,
        Outcome.indexOutOfRange (r.results.length + 1) r.results.length) := by
  have hout : ∀ q : ResultsIterator,
      ¬ (-1 ≤ q.currIndex ∧ q.currIndex ≤ (q.results.length : Int) - 1) →
      q.Next ix atof64 = ({ q with currIndex := q.currIndex + 1 },
        Outcome.indexOutOfRange (q.currIndex + 1) q.results.length) := by
    intro q hq
    rcases Next_cases ix atof64 q with ⟨h, _⟩ | ⟨_, h⟩ | ⟨_, _, h0, hlt, _⟩ | ⟨_, h0, hlt, _⟩
    · exact absurd ⟨by omega, by omega⟩ hq
    · exact h
    · exact absurd ⟨by omega, by omega⟩ hq
    · exact absurd ⟨by omega, by omega⟩ hq
  refine ⟨⟨?_, ?_⟩, hout r, ?_⟩
  · intro hsafe
    by_contra hq
    exact hsafe _ _ (by rw [hout r hq])
  · intro hin i n hpanic
    rcases Next_cases ix atof64 r with ⟨_, h⟩ | ⟨hr, _⟩ | ⟨_, _, _, _, _, _, h⟩ | ⟨_, _, _, _, _, h⟩
    · rw [h] at hpanic; exact absurd hpanic (by simp [finished])
    · omega
    · rw [h] at hpanic; exact absurd hpanic (by simp)
    · rw [h] at hpanic; exact absurd hpanic (by simp [finished])
  · exact hout (ResultsIterator.mk r.results.length r.results) (by simp)

/-- C19: two `Response` values that agree on `ShortLimit` and `LongRemaining` get
the same answer from `CanPerformMoreCalls`, whatever their `ShortRemaining`,
`LongLimit` and other fields; so the answer is true when `ShortLimit > 0` and
`LongRemaining > 0` although `ShortRemaining = 0`. -/
theorem CanPerformMoreCalls_ignores_ShortRemaining (r q : Response)
    (hs : r.ShortLimit = q.ShortLimit) (hl : r.LongRemaining = q.LongRemaining) :
    r.CanPerformMoreCalls.1 = q.CanPerformMoreCalls.1 ∧
    (r.ShortLimit > 0 → r.LongRemaining > 0 → r.ShortRemaining = 0 →
      r.CanPerformMoreCalls.1 = true) := by
  refine ⟨?_, ?_⟩
  · simp [Response.CanPerformMoreCalls, hs, hl]
  · intro h1 h2 _
    simp [Response.CanPerformMoreCalls, h1, h2]

/-- C19, at a concrete input: a response with `ShortLimit = 4`,
`LongRemaining = 100`, `ShortRemaining = 0` against the same response with
`ShortRemaining = 3` and `LongLimit = 0`. -/
theorem CanPerformMoreCalls_ignores_ShortRemaining_witness :
    shortWindowSpent.ShortLimit =
      ({ shortWindowSpent with ShortRemaining := 3, LongLimit := 0 } : Response).ShortLimit ∧
    shortWindowSpent.LongRemaining =
      ({ shortWindowSpent with ShortRemaining := 3, LongLimit := 0 } : Response).LongRemaining ∧
    shortWindowSpent.ShortRemaining = 0 ∧
    shortWindowSpent.CanPerformMoreCalls.1 =
      ({ shortWindowSpent with ShortRemaining := 3, LongLimit := 0 } :
        Response).CanPerformMoreCalls.1 ∧
    shortWindowSpent.CanPerformMoreCalls.1 = true :=
  ⟨rfl, rfl, rfl,
   (CanPerformMoreCalls_ignores_ShortRemaining shortWindowSpent
      { shortWindowSpent with ShortRemaining := 3, LongLimit := 0 } rfl rfl).1,
   (CanPerformMoreCalls_ignores_ShortRemaining shortWindowSpent
      { shortWindowSpent with ShortRemaining := 3, LongLimit := 0 } rfl rfl).2
      (by decide) (by decide) rfl⟩

end Salsa
